import Mathlib

/-!
Verification of the Hero/Team persistence tutorial (src/app.py and
src/practice/app.py) against its natural-language specification.

The repository's own code is the entity declarations, the fixture data and
the query shapes; the operational semantics of the session, commit, refresh
and SQL WHERE evaluation live in the ORM library whose code is not part of
the repository.  Definitions taken directly from the repository source say
so in their doc comment; definitions of library behaviour are marked
`Modelled from the spec:` and follow the specification's wording.
-/

namespace HeroApp

/-- The `Hero` table model of src/app.py lines 9-13 and
src/practice/app.py lines 17-24: optional surrogate `id`, required
`name` and `secret_name`, optional `age`, and (practice variant) an
optional foreign reference `team_id`. -/
structure Hero where
  id : Option Nat := none
  name : String
  secret_name : String
  age : Option Int := none
  team_id : Option Nat := none
deriving Repr, DecidableEq

/-- The `Team` table model of src/practice/app.py lines 10-15:
optional surrogate `id`, `name`, `headquarters`. -/
structure Team where
  id : Option Nat := none
  name : String
  headquarters : String
deriving Repr, DecidableEq

/-! ### WHERE-clause semantics

Modelled from the spec: "Comparisons against an optional field must treat
`unset` consistently — filtering must not silently match or reject nulls
unless said filter includes them explicitly."  A SQL comparison with NULL
is unknown and a WHERE clause keeps only rows where the predicate is true,
so a row with `age = NULL` never satisfies `age >= lo` nor `age < hi`. -/

/-- SQL evaluation of `col(Hero.age) >= lo` (src/app.py line 99):
false on a NULL age. -/
def ageGe (h : Hero) (lo : Int) : Bool :=
  match h.age with
  | none => false
  | some a => decide (lo ≤ a)

/-- SQL evaluation of `col(Hero.age) < hi` (src/app.py line 99):
false on a NULL age. -/
def ageLt (h : Hero) (hi : Int) : Bool :=
  match h.age with
  | none => false
  | some a => decide (a < hi)

/-- The conjunction of the two `where` arguments of src/app.py line 99:
`.where(col(Hero.age) >= lo, col(Hero.age) < hi)`. -/
def whereRange (lo hi : Int) (h : Hero) : Bool :=
  ageGe h lo && ageLt h hi

/-- `session.exec(select(Hero).where(...)).all()` over a stored table:
the rows satisfying the WHERE clause, in storage order. -/
def selectWhere (p : Hero → Bool) (db : List Hero) : List Hero :=
  db.filter p

/-- The query of `select_heros` (src/app.py line 99): heroes with
`35 <= age < 40`. -/
def select_heros (db : List Hero) : List Hero :=
  selectWhere (whereRange 35 40) db

/-! ### The fixture of create_heroes (src/app.py lines 30-36) -/

def hero_1 : Hero := { name := "Deadpond", secret_name := "Dive Wilson" }
def hero_2 : Hero := { name := "Spider-Boy", secret_name := "Pedro Parqueador" }
def hero_3 : Hero := { name := "Rusty-Man", secret_name := "Tommy Sharp", age := some 48 }
def hero_4 : Hero := { name := "Tarantula", secret_name := "Natalia Roman-on", age := some 32 }
def hero_5 : Hero := { name := "Black Lion", secret_name := "Trevor Challa", age := some 35 }
def hero_6 : Hero := { name := "Dr. Weird", secret_name := "Steve Weird", age := some 36 }
def hero_7 : Hero := { name := "Captain North America", secret_name := "Esteban Rogelios", age := some 93 }

/-- The seven heroes staged in create_heroes, in `session.add` order
(src/app.py lines 47-53). -/
def fixture : List Hero :=
  [hero_1, hero_2, hero_3, hero_4, hero_5, hero_6, hero_7]

/-- Modelled from the spec: on commit the storage assigns the surrogate
identity to each newly inserted row ("identity ... assigned by storage on
first commit"); an entity whose identity is already set keeps it.  Ids are
assigned consecutively starting from the engine's next free id. -/
def assignIds : Nat → List Hero → List Hero
  | _, [] => []
  | n, h :: t =>
      if h.id = none then { h with id := some n } :: assignIds (n + 1) t
      else h :: assignIds n t

/-- The hero table after `create_heroes` has committed the fixture into an
empty database: rows get ids 1..7. -/
def dbAfterCreate : List Hero :=
  assignIds 1 fixture

/-- C1: against the fixture set of seven heroes, selecting heroes whose age
satisfies `35 <= age < 40` (the query of `select_heros`, src/app.py line 99)
returns exactly the two heroes Black Lion and Dr. Weird, no more and no
fewer. -/
theorem select_heros_fixture_exact :
    select_heros dbAfterCreate
        = [{ hero_5 with id := some 5 }, { hero_6 with id := some 6 }]
      ∧ (select_heros dbAfterCreate).map Hero.name = ["Black Lion", "Dr. Weird"] := by
  decide

/-- C2: a hero whose optional age field is unset never matches the range
filter `age >= lo && age < hi` (it evaluates to false, never erroring, so
the hero is excluded from the result of the WHERE query). -/
theorem null_age_never_matches_range (db : List Hero) (lo hi : Int) (h : Hero)
    (hnull : h.age = none) :
    whereRange lo hi h = false ∧ h ∉ selectWhere (whereRange lo hi) db := by
  refine ⟨?_, ?_⟩
  · simp [whereRange, ageGe, hnull]
  · simp [selectWhere, List.mem_filter, whereRange, ageGe, hnull]

/-- Witness for C2 at the concrete filter of src/app.py line 99 and the
fixture hero Deadpond, whose age is unset. -/
theorem null_age_never_matches_range_witness :
    whereRange 35 40 hero_1 = false
      ∧ hero_1 ∉ selectWhere (whereRange 35 40) dbAfterCreate :=
  null_age_never_matches_range dbAfterCreate 35 40 hero_1 rfl

/-! ### Identity assignment on commit (C3) -/

lemma assignIds_map_id (staged : List Hero) :
    ∀ n : Nat, (∀ h ∈ staged, h.id = none) →
      (assignIds n staged).map Hero.id = (List.range' n staged.length).map some := by
  induction staged with
  | nil => intro n _; rfl
  | cons h t ih =>
      intro n hfresh
      have hh : h.id = none := hfresh h (List.mem_cons_self h t)
      have ht : ∀ x ∈ t, x.id = none := fun x hx => hfresh x (List.mem_cons_of_mem h hx)
      simp [assignIds, hh, ih (n + 1) ht, List.range'_succ]

/-- C3: for every entity, identity is null from construction until the
first commit (the fixture heroes are constructed with no id), after the
commit every persisted row has a non-null id and the assigned ids are
pairwise distinct, and an identity already assigned is never changed by a
further commit. -/
theorem identity_lifecycle (staged : List Hero) (n : Nat)
    (hfresh : ∀ h ∈ staged, h.id = none) :
    (∀ h ∈ fixture, h.id = none)
      ∧ (∀ h ∈ assignIds n staged, h.id ≠ none)
      ∧ ((assignIds n staged).map Hero.id).Nodup
      ∧ (∀ (m : Nat) (h : Hero) (t : List Hero), h.id ≠ none →
          assignIds m (h :: t) = h :: assignIds m t) := by
  refine ⟨by decide, ?_, ?_, ?_⟩
  · intro h hmem hnone
    have : h.id ∈ (assignIds n staged).map Hero.id := List.mem_map_of_mem Hero.id hmem
    rw [assignIds_map_id staged n hfresh] at this
    rcases List.mem_map.mp this with ⟨k, _, hk⟩
    rw [hnone] at hk
    exact Option.noConfusion hk
  · rw [assignIds_map_id staged n hfresh]
    exact List.Nodup.map (Option.some_injective _) (List.nodup_range' _ _)
  · intro m h t hid
    simp [assignIds, hid]

/-- Witness for C3: committing the fixture from an empty database assigns
pairwise-distinct identities. -/
theorem identity_lifecycle_witness :
    ((assignIds 1 fixture).map Hero.id).Nodup :=
  (identity_lifecycle fixture 1 (by decide)).2.2.1

/-! ### The Unit-of-Work (Session) state machine

Modelled from the spec: the session of `with Session(engine) as session`
(src/app.py line 45) scopes adds, commits and refreshes.  Commit flushes
the staged entities (assigning identities) and expires every in-memory
entity tracked by the session; an expired entity is `stale` (spec
section 9: an explicit stale flag).  `refresh` re-reads the entity's row
and clears the flag. -/

/-- An in-memory entity handle tracked by the session, with the explicit
stale flag of the spec. -/
structure Managed where
  hero : Hero
  stale : Bool
deriving Repr, DecidableEq

/-- The session operations used by create_heroes (src/app.py lines
47-81): `session.add`, `session.commit`, `session.refresh` (refresh is by
the position of the entity among the session's tracked entities). -/
inductive Op where
  | add (h : Hero)
  | commit
  | refreshAt (i : Nat)
deriving Repr, DecidableEq

/-- The state of one Unit-of-Work: the committed storage, the next free
surrogate id, and the entities tracked by the session. -/
structure SessionState where
  db : List Hero
  nextId : Nat
  entities : List Managed
deriving Repr, DecidableEq

/-- Modelled from the spec: `session.refresh` re-reads the entity's row
from storage into the in-memory object and clears the stale flag.  A
refresh of a missing entity or of a deleted row raises in the ORM and
changes no session state; the error itself is modelled by `refreshRow`
below. -/
def refreshTarget (s : SessionState) (i : Nat) : Option Hero :=
  s.entities[i]?.bind fun m => m.hero.id.bind fun k =>
    s.db.find? (fun r => r.id == some k)

def refreshEntity (s : SessionState) (i : Nat) : SessionState :=
  match refreshTarget s i with
  | none => s
  | some row => { s with entities := s.entities.set i { hero := row, stale := false } }

/-- Modelled from the spec: one session operation.
`add` stages an entity with no database round-trip; `commit` flushes the
newly staged entities into storage with fresh identities and marks every
tracked entity stale; `refresh` is `refreshEntity`. -/
def step (s : SessionState) : Op → SessionState
  | .add h => { s with entities := s.entities ++ [{ hero := h, stale := false }] }
  | .commit =>
      let heroes := s.entities.map Managed.hero
      let freshOnes := heroes.filter (fun h => h.id == none)
      { db := s.db ++ assignIds s.nextId freshOnes
        nextId := s.nextId + freshOnes.length
        entities := (assignIds s.nextId heroes).map (fun h => { hero := h, stale := true }) }
  | .refreshAt i => refreshEntity s i

/-- Running a sequence of session operations. -/
def run (s : SessionState) : List Op → SessionState
  | [] => s
  | op :: ops => run (step s op) ops

/-- How a `with` block can be left (src/app.py lines 88-89): normal
completion or an exception. -/
inductive ExitKind where
  | normal
  | raised
deriving Repr, DecidableEq

/-- Modelled from the spec: closing the session on any exit path releases
the transaction and rolls back whatever was staged but not committed, so
the storage that survives the session is exactly the committed `db`. -/
def exitSession (s : SessionState) (_ : ExitKind) : List Hero :=
  s.db

lemma assignIds_length (l : List Hero) : ∀ n, (assignIds n l).length = l.length := by
  induction l with
  | nil => intro n; rfl
  | cons h t ih =>
      intro n
      by_cases hh : h.id = none <;> simp [assignIds, hh, ih]

lemma refreshEntity_db (s : SessionState) (i : Nat) : (refreshEntity s i).db = s.db := by
  unfold refreshEntity
  split
  · rfl
  · rfl

lemma refreshEntity_entities (s : SessionState) (i : Nat) :
    (refreshEntity s i).entities = s.entities ∨
      ∃ row : Hero, (refreshEntity s i).entities
        = s.entities.set i { hero := row, stale := false } := by
  unfold refreshEntity
  split
  · exact Or.inl rfl
  · exact Or.inr ⟨_, rfl⟩

lemma step_entities_length_stable (s : SessionState) (op : Op) (i : Nat)
    (hlt : i < s.entities.length) : i < (step s op).entities.length := by
  cases op with
  | add h => simp only [step, List.length_append, List.length_cons, List.length_nil]; omega
  | commit => simpa [step, assignIds_length] using hlt
  | refreshAt j =>
      show i < (refreshEntity s j).entities.length
      rcases refreshEntity_entities s j with h | ⟨row, h⟩
      · simpa [h] using hlt
      · rw [h, List.length_set]; exact hlt

lemma step_preserves_stale (s : SessionState) (op : Op) (i : Nat)
    (hop : op ≠ Op.refreshAt i) (hlt : i < s.entities.length)
    (hst : ∀ m : Managed, s.entities[i]? = some m → m.stale = true) :
    ∀ m : Managed, (step s op).entities[i]? = some m → m.stale = true := by
  cases op with
  | add h =>
      intro m hm
      simp only [step] at hm
      rw [List.getElem?_append_left hlt] at hm
      exact hst m hm
  | commit =>
      intro m hm
      simp only [step, List.getElem?_map] at hm
      rcases Option.map_eq_some'.mp hm with ⟨h, _, rfl⟩
      rfl
  | refreshAt j =>
      have hji : j ≠ i := fun hj => hop (by rw [hj])
      intro m hm
      have hm' : (refreshEntity s j).entities[i]? = some m := hm
      rcases refreshEntity_entities s j with h | ⟨row, h⟩
      · rw [h] at hm'; exact hst m hm'
      · rw [h, List.getElem?_set_ne hji] at hm'
        exact hst m hm'

lemma run_preserves_stale (ops : List Op) :
    ∀ s : SessionState, ∀ i : Nat, Op.refreshAt i ∉ ops →
      i < s.entities.length →
      (∀ m : Managed, s.entities[i]? = some m → m.stale = true) →
      ∀ m : Managed, (run s ops).entities[i]? = some m → m.stale = true := by
  induction ops with
  | nil => intro s i _ _ hst; exact hst
  | cons op ops ih =>
      intro s i hno hlt hst
      have hop : op ≠ Op.refreshAt i := fun he => hno (he ▸ List.mem_cons_self op ops)
      have hno' : Op.refreshAt i ∉ ops := fun he => hno (List.mem_cons_of_mem op he)
      exact ih (step s op) i hno' (step_entities_length_stable s op i hlt)
        (step_preserves_stale s op i hop hlt hst)

/-- C4: after `commit`, every entity staged in the Unit-of-Work is stale,
and it stays stale through any further session operations that do not
refresh it; an explicit `refresh` re-reads the row and clears the stale
flag, making the server-assigned values visible. -/
theorem stale_until_refresh (s : SessionState) (ops : List Op) (i : Nat)
    (hlen : i < s.entities.length) (hno : Op.refreshAt i ∉ ops) :
    (∀ m : Managed, (run (step s Op.commit) ops).entities[i]? = some m →
        m.stale = true)
      ∧ (∀ (t : SessionState) (j k : Nat) (m : Managed) (row : Hero),
          t.entities[j]? = some m → m.hero.id = some k →
          t.db.find? (fun r => r.id == some k) = some row →
          (step t (Op.refreshAt j)).entities[j]?
            = some { hero := row, stale := false }) := by
  constructor
  · have hlt : i < (step s Op.commit).entities.length :=
      step_entities_length_stable s Op.commit i hlen
    refine run_preserves_stale ops (step s Op.commit) i hno hlt ?_
    intro m hm
    simp only [step, List.getElem?_map] at hm
    rcases Option.map_eq_some'.mp hm with ⟨h, _, rfl⟩
    rfl
  · intro t j k m row hm hid hfind
    have hj : j < t.entities.length := (List.getElem?_eq_some_iff.mp hm).1
    have htarget : refreshTarget t j = some row := by
      simp [refreshTarget, hm, hid, hfind]
    show (refreshEntity t j).entities[j]? = some { hero := row, stale := false }
    unfold refreshEntity
    rw [htarget]
    exact List.getElem?_set_self hj

/-- Witness for C4: in a one-entity session (Deadpond staged), the
entity the session holds after commit carries the stale flag. -/
theorem stale_until_refresh_witness :
    ({ hero := { hero_1 with id := some 1 }, stale := true } : Managed).stale = true :=
  (stale_until_refresh
    { db := [], nextId := 1, entities := [{ hero := hero_1, stale := false }] }
    [] 0 (by decide) (by simp)).1
    { hero := { hero_1 with id := some 1 }, stale := true } (by decide)

/-- C5: on every exit path of the Unit-of-Work (normal or exceptional),
the session is closed and staged-but-uncommitted changes are rolled back:
if no commit occurred, the storage that survives the session equals the
storage from before it, whatever was staged. -/
theorem uncommitted_work_rolled_back (s : SessionState) (ops : List Op) (e : ExitKind)
    (hnc : Op.commit ∉ ops) :
    exitSession (run s ops) e = s.db := by
  induction ops generalizing s with
  | nil => rfl
  | cons op ops ih =>
      have hop : op ≠ Op.commit := fun he => hnc (he ▸ List.mem_cons_self op ops)
      have hnc' : Op.commit ∉ ops := fun he => hnc (List.mem_cons_of_mem op he)
      have hdb : (step s op).db = s.db := by
        cases op with
        | add h => rfl
        | commit => exact absurd rfl hop
        | refreshAt j => exact refreshEntity_db s j
      rw [run, ih (step s op) hnc', hdb]

/-- Witness for C5: staging all seven fixture heroes and abandoning the
session with an exception leaves the empty storage empty. -/
theorem uncommitted_work_rolled_back_witness :
    exitSession
      (run { db := [], nextId := 1, entities := [] } (fixture.map Op.add))
      ExitKind.raised = [] :=
  uncommitted_work_rolled_back { db := [], nextId := 1, entities := [] }
    (fixture.map Op.add) ExitKind.raised (by decide)

/-! ### refresh as a fallible read (C6) -/

/-- Modelled from the spec: `session.refresh(entity)` as a fallible
operation: it re-reads the entity's current row from storage, and fails
with a "no such row" condition when the row no longer exists (e.g. after
the delete of src/practice/app.py lines 216-219). -/
def refreshRow (db : List Hero) (h : Hero) : Except String Hero :=
  match h.id with
  | none => Except.error "not persisted"
  | some k =>
      match db.find? (fun r => r.id == some k) with
      | none => Except.error "no such row"
      | some row => Except.ok row

/-- Modelled from the spec: `session.delete(hero)` followed by commit
(src/practice/app.py lines 216-217) removes the row carrying the hero's
identity from storage. -/
def deleteById (db : List Hero) (k : Nat) : List Hero :=
  db.filter (fun r => r.id != some k)

/-- C6: `refresh` succeeds and re-reads the current row whenever the
entity's row exists, fails with a "no such row" condition whenever no row
carries the entity's identity, and in particular never silently succeeds
after the entity's row has been deleted. -/
theorem refresh_reads_row_or_fails :
    (∀ (db : List Hero) (h : Hero) (k : Nat) (row : Hero), h.id = some k →
        db.find? (fun r => r.id == some k) = some row →
        refreshRow db h = Except.ok row)
      ∧ (∀ (db : List Hero) (h : Hero) (k : Nat), h.id = some k →
          (∀ r ∈ db, r.id ≠ some k) →
          refreshRow db h = Except.error "no such row")
      ∧ (∀ (db : List Hero) (h : Hero) (k : Nat), h.id = some k →
          refreshRow (deleteById db k) h = Except.error "no such row") := by
  have hnone : ∀ (db : List Hero) (h : Hero) (k : Nat), h.id = some k →
      (∀ r ∈ db, r.id ≠ some k) → refreshRow db h = Except.error "no such row" := by
    intro db h k hid hall
    have hfind : db.find? (fun r => r.id == some k) = none :=
      List.find?_eq_none.mpr (fun r hr => by simpa using hall r hr)
    simp [refreshRow, hid, hfind]
  refine ⟨?_, hnone, ?_⟩
  · intro db h k row hid hfind
    simp [refreshRow, hid, hfind]
  · intro db h k hid
    refine hnone (deleteById db k) h k hid ?_
    intro r hr
    have := List.of_mem_filter hr
    simpa using this

/-- Witness for C6: refreshing Deadpond's persisted row succeeds with the
row, and refreshing after its deletion fails with "no such row". -/
theorem refresh_reads_row_or_fails_witness :
    refreshRow dbAfterCreate { hero_1 with id := some 1 }
        = Except.ok { hero_1 with id := some 1 }
      ∧ refreshRow (deleteById dbAfterCreate 1) { hero_1 with id := some 1 }
        = Except.error "no such row" :=
  ⟨refresh_reads_row_or_fails.1 dbAfterCreate { hero_1 with id := some 1 } 1
      { hero_1 with id := some 1 } rfl (by decide),
    refresh_reads_row_or_fails.2.2 dbAfterCreate { hero_1 with id := some 1 } 1 rfl⟩

/-! ### Idempotent schema creation (C7) -/

/-- The whole backing store: whether the tables exist, and the rows. -/
structure Storage where
  hasTables : Bool
  heroRows : List Hero
  teamRows : List Team
deriving Repr, DecidableEq

/-- Modelled from the spec: `SQLModel.metadata.create_all(engine)`
(src/app.py lines 25-27): creates the tables if absent (they start
empty), and is a no-op when they already exist. -/
def create_db_and_tables (s : Storage) : Storage :=
  if s.hasTables then s
  else { hasTables := true, heroRows := [], teamRows := [] }

/-- C7: schema creation is idempotent — for every starting storage state,
running `create_db_and_tables` twice leaves storage in the same state as
running it once. -/
theorem create_db_and_tables_idempotent (s : Storage) :
    create_db_and_tables (create_db_and_tables s) = create_db_and_tables s := by
  by_cases h : s.hasTables <;> simp [create_db_and_tables, h]

/-! ### The Team.heroes relationship collection (C8) -/

/-- Modelled from the spec: the relationship attribute `team.heroes`
(`Relationship(back_populates="team")`, src/practice/app.py line 15)
loads exactly the Hero rows whose foreign reference equals the team's
identity; a team with no identity owns no rows. -/
def teamHeroes (db : List Hero) (t : Team) : List Hero :=
  match t.id with
  | none => []
  | some k => db.filter (fun h => h.team_id == some k)

/-- C8: after every commit (which leaves the stored rows with pairwise
distinct identities), a Team's heroes collection holds exactly the stored
Heroes whose `team_id` equals the Team's identity — no Hero missing,
none duplicated, none pointing elsewhere — and a Hero references at most
one Team. -/
theorem team_collection_exact (db : List Hero) (t : Team) (k : Nat)
    (hid : t.id = some k) (hnodup : (db.map Hero.id).Nodup) :
    (∀ h : Hero, h ∈ teamHeroes db t ↔ (h ∈ db ∧ h.team_id = t.id))
      ∧ (teamHeroes db t).Nodup
      ∧ (∀ (h : Hero) (k1 k2 : Nat),
          h.team_id = some k1 → h.team_id = some k2 → k1 = k2) := by
  refine ⟨?_, ?_, ?_⟩
  · intro h
    simp [teamHeroes, hid, List.mem_filter]
  · have hdb : db.Nodup := hnodup.of_map Hero.id
    simp only [teamHeroes, hid]
    exact hdb.filter _
  · intro h k1 k2 h1 h2
    rw [h1] at h2
    exact Option.some_injective _ h2

/-- Witness for C8 at the committed fixture table and the team
Preventers with identity 1. -/
theorem team_collection_exact_witness :
    (teamHeroes dbAfterCreate
        { id := some 1, name := "Preventers", headquarters := "Sharp Tower" }).Nodup :=
  (team_collection_exact dbAfterCreate
      { id := some 1, name := "Preventers", headquarters := "Sharp Tower" }
      1 rfl (by decide)).2.1

/-! ### Pagination (C9) -/

/-- The query of src/practice/app.py lines 153-156:
`select(Hero).where(col(Hero.age) >= 35)`. -/
def selectAgeGe35 (db : List Hero) : List Hero :=
  selectWhere (fun h => ageGe h 35) db

/-- `.limit(limit).offset(offset)` (src/practice/app.py lines 159-168):
SQL applies OFFSET first, then LIMIT. -/
def page (offset limit : Nat) (l : List Hero) : List Hero :=
  (l.drop offset).take limit

lemma page_partition_of_length_four (l : List Hero) (hlen : l.length = 4)
    (hnodup : l.Nodup) :
    (page 0 2 l).length = 2 ∧ (page 2 2 l).length = 2
      ∧ page 0 2 l ++ page 2 2 l = l
      ∧ (page 0 2 l).Disjoint (page 2 2 l) := by
  have h02 : page 0 2 l = l.take 2 := by simp [page]
  have h22 : page 2 2 l = l.drop 2 := by
    have : (l.drop 2).length ≤ 2 := by simp [hlen]
    simpa [page] using List.take_of_length_le this
  refine ⟨?_, ?_, ?_, ?_⟩
  · simp [h02, hlen]
  · simp [h22, hlen]
  · rw [h02, h22]; exact List.take_append_drop 2 l
  · rw [h02, h22]
    exact List.disjoint_take_drop hnodup (le_refl 2)

/-- C9: with exactly 4 stored records matching the filter `age >= 35`,
reading with offset 0 / limit 2 and then offset 2 / limit 2 yields two
sequences of 2 records each that are disjoint and together cover all 4
records. -/
theorem pagination_partitions (db : List Hero)
    (hlen : (selectAgeGe35 db).length = 4)
    (hnodup : (selectAgeGe35 db).Nodup) :
    (page 0 2 (selectAgeGe35 db)).length = 2
      ∧ (page 2 2 (selectAgeGe35 db)).length = 2
      ∧ page 0 2 (selectAgeGe35 db) ++ page 2 2 (selectAgeGe35 db) = selectAgeGe35 db
      ∧ (page 0 2 (selectAgeGe35 db)).Disjoint (page 2 2 (selectAgeGe35 db)) :=
  page_partition_of_length_four (selectAgeGe35 db) hlen hnodup

/-- Witness for C9: the committed fixture table has exactly 4 heroes with
`age >= 35`, and the two pages cover it disjointly. -/
theorem pagination_partitions_witness :
    page 0 2 (selectAgeGe35 dbAfterCreate) ++ page 2 2 (selectAgeGe35 dbAfterCreate)
      = selectAgeGe35 dbAfterCreate :=
  (pagination_partitions dbAfterCreate (by decide) (by decide)).2.2.1

/-! ### Relationship attributes and save cascade (C10)

src/practice/app.py builds heroes with in-memory `team` object references
(lines 46-59), commits them without ever adding the teams to the session
(lines 67-80), re-targets `hero_2.team` (lines 108-110), and appends a
hero to `team_preventers.heroes` (lines 126-129).  The propagation of
those object references into foreign keys, and the save cascade over
reachable objects, are ORM behaviour modelled here from the spec. -/

/-- An in-memory Team object before persistence. -/
structure MTeam where
  name : String
  headquarters : String
deriving Repr, DecidableEq

/-- An in-memory Hero object before persistence, holding an object
reference to its team (the `team=` keyword of src/practice/app.py
lines 53 and 55). -/
structure MHero where
  name : String
  secret_name : String
  age : Option Int := none
  team : Option MTeam := none
deriving Repr, DecidableEq

/-- The practice-variant storage: both tables and both id counters. -/
structure DB2 where
  heroRows : List Hero
  teamRows : List Team
  nextHeroId : Nat
  nextTeamId : Nat
deriving Repr, DecidableEq

def emptyDB2 : DB2 :=
  { heroRows := [], teamRows := [], nextHeroId := 1, nextTeamId := 1 }

/-- Persisting a batch of new teams: storage assigns consecutive ids. -/
def assignTeamIds : Nat → List MTeam → List Team
  | _, [] => []
  | n, t :: rest =>
      { id := some n, name := t.name, headquarters := t.headquarters }
        :: assignTeamIds (n + 1) rest

/-- The identity of the stored team row matching an in-memory team. -/
def teamIdFor (teams : List Team) (mt : MTeam) : Option Nat :=
  (teams.find? (fun t => t.name == mt.name)).bind Team.id

/-- The distinct teams reachable from the staged heroes' `team`
references. -/
def referencedTeams (staged : List MHero) : List MTeam :=
  (staged.filterMap MHero.team).dedup

/-- Modelled from the spec: committing staged heroes first persists every
reachable team that is not stored yet (the save cascade: the teams were
never `session.add`ed, src/practice/app.py lines 48-51), then inserts the
hero rows with `team_id` resolved to the referenced team's identity. -/
def commitCascade (db : DB2) (staged : List MHero) : DB2 :=
  let fresh := (referencedTeams staged).filter
    (fun mt => !(db.teamRows.any (fun t => t.name == mt.name)))
  let teams := db.teamRows ++ assignTeamIds db.nextTeamId fresh
  let rows := staged.map (fun h =>
    { name := h.name, secret_name := h.secret_name, age := h.age,
      team_id := h.team.bind (teamIdFor teams) : Hero })
  { heroRows := db.heroRows ++ assignIds db.nextHeroId rows
    teamRows := teams
    nextHeroId := db.nextHeroId + staged.length
    nextTeamId := db.nextTeamId + fresh.length }

/-- Modelled from the spec: mutating one side of the relationship —
`hero.team = t` (src/practice/app.py line 108) or appending the hero to
`t.heroes` (line 126), which back-populates the same reference — and
committing updates the stored hero row's `team_id` to `t`'s identity. -/
def setHeroTeam (db : DB2) (heroId : Nat) (mt : MTeam) : DB2 :=
  { db with heroRows := db.heroRows.map (fun r =>
      if r.id == some heroId then { r with team_id := teamIdFor db.teamRows mt }
      else r) }

/-! The fixture of src/practice/app.py lines 46-59. -/

def team_preventers : MTeam := { name := "Preventers", headquarters := "Sharp Tower" }
def team_z_force : MTeam := { name := "Z-Force", headquarters := "Sister Margaret's Bar" }
def phero_1 : MHero :=
  { name := "Deadpond", secret_name := "Dive Wilson", team := some team_z_force }
def phero_2 : MHero := { name := "Spider-Boy", secret_name := "Pedro Parqueador" }
def phero_3 : MHero :=
  { name := "Rusty-Man", secret_name := "Tommy Sharp", age := some 48,
    team := some team_preventers }
def phero_4 : MHero :=
  { name := "Tarantula", secret_name := "Natalia Roman-on", age := some 32 }
def phero_5 : MHero :=
  { name := "Black Lion", secret_name := "Trevor Challa", age := some 35 }
def phero_6 : MHero := { name := "Dr. Weird", secret_name := "Steve Weird", age := some 36 }
def phero_7 : MHero :=
  { name := "Captain North America", secret_name := "Esteban Rogelios", age := some 93 }

/-- The staged heroes in `session.add` order (src/practice/app.py
lines 67-73). -/
def practiceStaged : List MHero :=
  [phero_1, phero_2, phero_3, phero_4, phero_5, phero_6, phero_7]

/-- Storage after the first commit of create_heroes
(src/practice/app.py line 80). -/
def practiceDB1 : DB2 :=
  commitCascade emptyDB2 practiceStaged

/-- Storage after `hero_2.team = team_preventers; session.add(hero_2);
session.commit()` (src/practice/app.py lines 108-110). -/
def practiceDB2 : DB2 :=
  setHeroTeam practiceDB1 2 team_preventers

/-- Storage after `team_preventers.heroes.append(hero_4);
session.add(team_preventers); session.commit()` (src/practice/app.py
lines 126-129): back-populated onto hero_4's foreign key. -/
def practiceDB3 : DB2 :=
  setHeroTeam practiceDB2 4 team_preventers

/-- C10: mutating one side of the Hero-Team relationship propagates to
the foreign key and to storage on commit: the teams reachable from the
staged heroes are persisted by the same commit although never added to
the session (Z-Force gets id 1, Preventers id 2), Deadpond's and
Rusty-Man's rows carry their teams' identities, re-targeting Spider-Boy's
`team` attribute and committing sets its `team_id` to Preventers'
identity, and appending Tarantula to Preventers' heroes collection and
committing does the same. -/
theorem relationship_propagates_on_commit :
    practiceDB1.teamRows.map Team.name = ["Z-Force", "Preventers"]
      ∧ (practiceDB1.teamRows.find? (fun t => t.name == "Z-Force")).map Team.id
          = some (some 1)
      ∧ (practiceDB1.heroRows.find? (fun h => h.name == "Deadpond")).map Hero.team_id
          = some (some 1)
      ∧ (practiceDB1.heroRows.find? (fun h => h.name == "Rusty-Man")).map Hero.team_id
          = some (some 2)
      ∧ (practiceDB1.heroRows.find? (fun h => h.name == "Spider-Boy")).map Hero.team_id
          = some none
      ∧ (practiceDB2.heroRows.find? (fun h => h.name == "Spider-Boy")).map Hero.team_id
          = some (some 2)
      ∧ (practiceDB3.heroRows.find? (fun h => h.name == "Tarantula")).map Hero.team_id
          = some (some 2) := by
  decide

end HeroApp
